import Mathlib

/-!
Shallow embedding of `setuptools/_distutils/compilers/C/emx.py` (the EMX
OS/2 port of the distutils C compiler driver).  Python strings are modelled
as `List Char` (sequences of code points); the `os.path` helpers used by the
source are modelled POSIX-style (separator `'/'`, plus a drive-letter model
for `splitdrive`), following CPython's implementations.
-/

namespace EmxC

/-- Python `s.rfind(c)`: index of the last occurrence of `c`, `-1` if absent. -/
def pyRfind (c : Char) (s : List Char) : Int :=
  match s.reverse.findIdx? (· = c) with
  | none => -1
  | some i => (s.length : Int) - 1 - i

/-- The index just after the last `'/'` (0 when there is none):
Python `p.rfind('/') + 1`, used by `basename`/`dirname`. -/
def afterLastSlash (s : List Char) : Nat := (pyRfind '/' s + 1).toNat

/-- Model of `posixpath.basename`: `p[p.rfind('/')+1:]`. -/
def basename (s : List Char) : List Char := s.drop (afterLastSlash s)

/-- Model of `posixpath.dirname`: take the part up to and including the last
`'/'`, then strip trailing separators unless the head is all separators. -/
def dirname (s : List Char) : List Char :=
  let head := s.take (afterLastSlash s)
  if head ≠ [] ∧ head.any (fun c => c ≠ '/') then
    (head.reverse.dropWhile (fun c => c = '/')).reverse
  else head

/-- Model of `posixpath.splitext` (CPython `genericpath._splitext` with
separator `'/'`): split at the last dot after the last separator, unless
every character between them is a dot (leading-dot filenames keep no
extension). -/
def splitext (p : List Char) : List Char × List Char :=
  let sepIndex := pyRfind '/' p
  let dotIndex := pyRfind '.' p
  if sepIndex < dotIndex then
    if ((p.take dotIndex.toNat).drop (sepIndex + 1).toNat).any (fun c => c ≠ '.') then
      (p.take dotIndex.toNat, p.drop dotIndex.toNat)
    else (p, [])
  else (p, [])

/-- Model of `os.path.splitdrive` on the OS/2 target (drive-letter form of
CPython `ntpath.splitdrive`): a `X:` prefix is the drive. -/
def splitdrive (s : List Char) : List Char × List Char :=
  match s with
  | a :: ':' :: rest => ([a, ':'], rest)
  | _ => ([], s)

/-- Model of `posixpath.isabs`. -/
def isabs (s : List Char) : Bool := s.head? = some '/'

/-- Model of `posixpath.join` restricted to two components, as used by the
source: `join(a, b)`. -/
def joinPath (a b : List Char) : List Char :=
  if b.head? = some '/' then b
  else if a = [] ∨ a.getLast? = some '/' then a ++ b
  else a ++ '/' :: b

/-- Python `s.split(';')`: splits at every `';'`, keeping empty pieces
(`''.split(';') == ['']`). -/
def pySplitSemi : List Char → List (List Char)
  | [] => [[]]
  | c :: rest =>
    if c = ';' then [] :: pySplitSemi rest
    else
      match pySplitSemi rest with
      | h :: t => (c :: h) :: t
      | [] => [[c]]

/-- One decimal digit as a character. -/
def natDigitChar (n : Nat) : Char := Char.ofNat (48 + n)

/-- Fuel-driven decimal rendering core (most significant digit first). -/
def pyStrCore : Nat → Nat → List Char → List Char
  | 0, _, acc => acc
  | fuel + 1, n, acc =>
    if n < 10 then natDigitChar n :: acc
    else pyStrCore fuel (n / 10) (natDigitChar (n % 10) :: acc)

/-- Model of Python `str(n)` for a natural number: decimal rendering. -/
def pyStr (n : Nat) : List Char := pyStrCore (n + 1) n []

/-- Model of `reduce(lambda x,y: x+y, map(ord, s))` for a (nonempty) string:
the sum of the code points.  (On the empty string Python's `reduce` would
raise, but the source only evaluates it under `len(dll_name) > 8`, which
forces the string to be nonempty.) -/
def ordSum (s : List Char) : Nat := (s.map Char.toNat).sum

/-! Class attributes of `Compiler` (emx.py lines 33-43) that the claims use. -/

/-- `_rc_extensions = ['.rc', '.RC']` (emx.py line 33). -/
def rcExtensions : List (List Char) := [".rc".data, ".RC".data]

/-- `obj_extension = ".o"`. -/
def objExtension : List Char := ".o".data

/-- `res_extension = ".res"`. -/
def resExtension : List Char := ".res".data

/-- `CCompiler.EXECUTABLE = "executable"`, the target-description constant
the source compares `target_desc` against. -/
def EXECUTABLE : List Char := "executable".data

/-! ## Compile dispatcher (`Compiler._compile`, emx.py lines 60-73) -/

/-- The argv of the single process spawned by `_compile` for one source file:
`["rc", "-r", src]` when `ext == '.rc'`, else
`compiler_so + cc_args + [src, '-o', obj] + extra_postargs`.
(`pp_opts` is accepted and ignored, exactly as in the source.) -/
def compileSpawn (compiler_so : List (List Char)) (obj src ext : List Char)
    (cc_args extra_postargs pp_opts : List (List Char)) : List (List Char) :=
  let _ := pp_opts
  if ext = ".rc".data then
    ["rc".data, "-r".data, src]
  else
    compiler_so ++ cc_args ++ [src, "-o".data, obj] ++ extra_postargs

/-! ## Errors raised by the modelled methods -/

/-- OS-level error kinds, distinguishing the absence condition from the
other failures `os.remove` can raise. -/
inductive OSError where
  | fileNotFound
  | permissionDenied
  | otherFailure
deriving DecidableEq, Repr

/-- Python exceptions surfaced by the modelled methods. -/
inductive PyErr where
  /-- `IndexError`, raised by `objects[0]` on an empty list. -/
  | indexError
  /-- `UnknownFileError(msg)` carrying the offending extension and source
  path (emx.py lines 187-188). -/
  | unknownFile (ext : List Char) (src : List Char)
  /-- an `OSError` propagated to the caller. -/
  | osError (e : OSError)
deriving DecidableEq, Repr

/-! ## Filename mapper (`Compiler.object_filenames`, emx.py lines 177-198) -/

/-- `object_filenames`, parameterized by the inherited `src_extensions`
attribute (supplied by the base class, outside this repository).  Processes
the sources in order, raising `UnknownFileError` at the first source whose
extension is neither a recognized source extension nor a recognized
resource-script extension. -/
def object_filenames (src_extensions : List (List Char)) (strip_dir : Bool)
    (output_dir : Option (List Char)) :
    List (List Char) → Except PyErr (List (List Char))
  | [] => .ok []
  | src_name :: rest =>
    let od := output_dir.getD []
    let base0 := (splitext src_name).1
    let ext := (splitext src_name).2
    let base1 := (splitdrive base0).2
    let base2 := if isabs base1 then base1.drop 1 else base1
    if ext ∈ src_extensions ++ rcExtensions then
      let base3 := if strip_dir then basename base2 else base2
      let objName :=
        if ext ∈ rcExtensions then joinPath od (base3 ++ resExtension)
        else joinPath od (base3 ++ objExtension)
      match object_filenames src_extensions strip_dir output_dir rest with
      | .ok names => .ok (objName :: names)
      | .error e => .error e
    else
      .error (.unknownFile ext src_name)

/-! ## Library resolver (`Compiler.find_library_file`, emx.py lines 204-221) -/

/-- `try_names` (emx.py line 205): the six candidate file names, in source
order. -/
def tryNames (lib : List Char) : List (List Char) :=
  [ lib ++ ".lib".data, lib ++ ".a".data, lib ++ "_dll.a".data,
    "lib".data ++ lib ++ ".lib".data, "lib".data ++ lib ++ ".a".data,
    "lib".data ++ lib ++ "_dll.a".data ]

/-- The inner loop of `find_library_file`: try each candidate name inside
one directory. -/
def searchNames (exists? : List Char → Bool) (dir : List Char) :
    List (List Char) → Option (List Char)
  | [] => none
  | name :: names =>
    let libfile := joinPath dir name
    if exists? libfile then some libfile
    else searchNames exists? dir names

/-- The outer loop of `find_library_file`: directories in order, exhausting
all name variants in one directory before moving on. -/
def searchDirs (exists? : List Char → Bool) (names : List (List Char)) :
    List (List Char) → Option (List Char)
  | [] => none
  | dir :: dirs =>
    match searchNames exists? dir names with
    | some f => some f
    | none => searchDirs exists? names dirs

/-- `emx_dirs`: `os.environ['LIBRARY_PATH'].split(';')`, or `[]` when the
variable is unset (`KeyError`). -/
def emxDirs (library_path : Option (List Char)) : List (List Char) :=
  match library_path with
  | some s => pySplitSemi s
  | none => []

/-- `find_library_file`, with the filesystem abstracted as the predicate
`exists?` (the result of `os.path.exists`) and the environment variable
`LIBRARY_PATH` as an explicit input. -/
def find_library_file (exists? : List Char → Bool)
    (library_path : Option (List Char)) (dirs : List (List Char))
    (lib : List Char) : Option (List Char) :=
  searchDirs exists? (tryNames lib) (dirs ++ emxDirs library_path)

/-! ## Link orchestrator (`Compiler.link`, emx.py lines 75-173) -/

/-- `dll_name`, the long stem: `splitext(basename(output_filename))[0]`
(emx.py lines 89-90). -/
def dllNameOf (output_filename : List Char) : List Char :=
  (splitext (basename output_filename)).1

/-- `dll_extension`: `splitext(basename(output_filename))[1]`. -/
def dllExtensionOf (output_filename : List Char) : List Char :=
  (splitext (basename output_filename)).2

/-- `dll_name8`, the short-name derivation (emx.py lines 92-95): if the stem
exceeds 8 characters, the first 3 characters of the basename followed by the
decimal rendering of the sum of the code points of the full output filename
modulo 65536; otherwise the stem unchanged. -/
def dllName8Of (output_filename : List Char) : List Char :=
  if (dllNameOf output_filename).length > 8 then
    (basename output_filename).take 3 ++ pyStr (ordSum output_filename % 65536)
  else
    dllNameOf output_filename

/-- The vendor string of the buildlevel (emx.py lines 119-121):
`os.getenv('VENDOR')`, replaced by the default when unset or falsy (empty). -/
def vendorOf (vendor_env : Option (List Char)) : List Char :=
  match vendor_env with
  | none => "python build system".data
  | some v => if v = [] then "python build system".data else v

/-- The version string (emx.py lines 124-126): `self.version`, replaced by
`"0.0"` when falsy (absent or empty). -/
def versionOf (version : Option (List Char)) : List Char :=
  match version with
  | none => "0.0".data
  | some v => if v = [] then "0.0".data else v

/-- The ambient inputs `link` reads besides its parameters: the `VENDOR`
environment variable, `self.version`, the formatted `datetime.now()`, the
host name from `os.uname()`, and `self.dll_libraries`. -/
structure LinkEnv where
  vendor_env : Option (List Char)
  version : Option (List Char)
  date_time : List Char
  host : List Char
  dll_libraries : List (List Char)
deriving DecidableEq, Repr

/-- The `try: os.remove(output_filename) except OSError: pass` statement
(emx.py lines 169-172), as a function of the outcome the removal itself
would have: every `OSError` is caught and discarded. -/
def removeStage : Except OSError Unit → Except OSError Unit
  | .ok _ => .ok ()
  | .error _ => .ok ()

/-- The observable outcome of one `link` call: the definition file written
(path and contents), the lists handed to the underlying `super().link`, the
actual output path used, the export-symbol argument passed down (always
`None`), and the symlink created by the alias stage (link target, link
path). -/
structure LinkOutputs where
  defFileWrite : Option (List Char × List (List Char))
  objectsFinal : List (List Char)
  librariesFinal : List (List Char)
  extraPreargsFinal : List (List Char)
  linkOutputPath : List Char
  exportSymbolsPassed : Option (List (List Char))
  symlinkCreated : Option (List Char × List Char)
deriving DecidableEq, Repr

/-- The definition-file synthesis stage of `link` (emx.py lines 101-146):
`none` when skipped, the `(def_file, contents)` pair when entered, or
`IndexError` when entered with an empty object list (`objects[0]`). -/
def defStage (env : LinkEnv) (target_desc : List Char)
    (export_symbols : Option (List (List Char)))
    (objects : List (List Char)) (output_filename : List Char) :
    Except PyErr (Option (List Char × List (List Char))) :=
  match export_symbols with
  | none => .ok none
  | some syms =>
    if target_desc = EXECUTABLE then .ok none
    else
      match objects with
      | [] => .error .indexError
      | o :: _ =>
        let temp_dir := dirname o
        let dll_name := dllNameOf output_filename
        let def_file := joinPath temp_dir (dll_name ++ ".def".data)
        let vendor := vendorOf env.vendor_env
        let version := versionOf env.version
        let contents :=
          [ "LIBRARY ".data ++ dllName8Of output_filename ++
              " INITINSTANCE TERMINSTANCE".data,
            "DESCRIPTION \"@#".data ++ vendor ++ ":".data ++ version ++
              "#@##1## ".data ++ env.date_time ++ "     ".data ++ env.host ++
              "::::0::@@".data ++ dll_name ++ "\"".data,
            "DATA MULTIPLE NONSHARED".data,
            "EXPORTS".data ] ++
          syms.map (fun sym => "  \"_".data ++ sym ++ "\"".data)
        .ok (some (def_file, contents))

/-- `Compiler.link` (emx.py lines 75-173) as a pure function from its
parameters, the ambient environment, and the outcome the `os.remove` call
would have, to its observable effects.  Mutable-list copying is functional
here (the operational list model below covers the aliasing claim). -/
def link (env : LinkEnv) (removeResult : Except OSError Unit)
    (target_desc : List Char) (objects0 : Option (List (List Char)))
    (output_filename : List Char) (libraries0 : Option (List (List Char)))
    (export_symbols : Option (List (List Char))) (debug : Bool)
    (extra_preargs0 : Option (List (List Char))) :
    Except PyErr LinkOutputs :=
  let extra_preargs := extra_preargs0.getD []
  let libraries := libraries0.getD [] ++ env.dll_libraries
  let objects := objects0.getD []
  let dll_name := dllNameOf output_filename
  let dll_extension := dllExtensionOf output_filename
  let dll_name8 := dllName8Of output_filename
  let dll_namefull :=
    joinPath (dirname output_filename) (dll_name8 ++ dll_extension)
  match defStage env target_desc export_symbols objects output_filename with
  | .error e => .error e
  | .ok defWrite =>
    let objectsFinal :=
      objects ++ (match defWrite with | some (f, _) => [f] | none => [])
    let extraPreargsFinal :=
      extra_preargs ++ (if debug then [] else ["-s".data])
    match (if dll_name.length > 8 then removeStage removeResult
           else .ok ()) with
    | .error e => .error (.osError e)
    | .ok _ =>
      .ok { defFileWrite := defWrite
            objectsFinal := objectsFinal
            librariesFinal := libraries
            extraPreargsFinal := extraPreargsFinal
            linkOutputPath := dll_namefull
            exportSymbolsPassed := none
            symlinkCreated :=
              if dll_name.length > 8 then
                some (dll_name8 ++ dll_extension, output_filename)
              else none }

/-! ## Operational model of the list manipulation in `link`

Python lists are mutable objects; `link` takes care to work on copies
(emx.py lines 80-86, 146, 157-158).  To state that the caller's lists are
unchanged we model a heap of list objects addressed by references. -/

/-- A heap of Python list-of-string objects; a reference is an index. -/
structure PyHeap where
  cells : List (List (List Char))
deriving DecidableEq, Repr

/-- Dereference (out-of-range yields the empty list; the theorems only use
valid references). -/
def pyGet (st : PyHeap) (r : Nat) : List (List Char) := st.cells.getD r []

/-- Allocate a fresh list object holding `v`. -/
def pyAlloc (st : PyHeap) (v : List (List Char)) : PyHeap × Nat :=
  (⟨st.cells ++ [v]⟩, st.cells.length)

/-- `copy.copy(l)`: allocate a fresh object with the same elements. -/
def pyCopy (st : PyHeap) (r : Nat) : PyHeap × Nat :=
  pyAlloc st (pyGet st r)

/-- `l.extend(v)`: in-place mutation of the object at `r`. -/
def pyExtend (st : PyHeap) (r : Nat) (v : List (List Char)) : PyHeap :=
  ⟨st.cells.set r (pyGet st r ++ v)⟩

/-- `l.append(x)`. -/
def pyAppend (st : PyHeap) (r : Nat) (x : List Char) : PyHeap :=
  pyExtend st r [x]

/-- The sequence of list operations `link` performs, in source order:
`extra_preargs = copy.copy(extra_preargs or [])` (line 81),
`libraries = copy.copy(libraries or [])` (line 82),
`objects = copy.copy(objects or [])` (line 83),
`libraries.extend(self.dll_libraries)` (line 86),
`objects.append(def_file)` when a definition file was synthesized
(line 146), and `extra_preargs.append("-s")` when not `debug` (line 158).
Returns the final heap and the references of the three working copies. -/
def linkListOps (st : PyHeap) (objectsR librariesR preargsR : Nat)
    (dll_libraries : List (List Char)) (def_file : Option (List Char))
    (debug : Bool) : PyHeap × Nat × Nat × Nat :=
  let (st1, preargsC) := pyCopy st preargsR
  let (st2, librariesC) := pyCopy st1 librariesR
  let (st3, objectsC) := pyCopy st2 objectsR
  let st4 := pyExtend st3 librariesC dll_libraries
  let st5 := match def_file with
    | some f => pyAppend st4 objectsC f
    | none => st4
  let st6 := if debug then st5 else pyAppend st5 preargsC "-s".data
  (st6, objectsC, librariesC, preargsC)

/-! ## Helper lemmas -/

/-- Core length bound for the decimal rendering: with enough fuel, a number
below `10 ^ k` renders to at most `k` digits. -/
theorem pyStrCore_length (fuel : Nat) : ∀ (n : Nat) (acc : List Char) (k : Nat),
    n < 10 ^ k → 1 ≤ k → (pyStrCore (fuel + 1) n acc).length ≤ k + acc.length := by
  induction fuel with
  | zero =>
    intro n acc k _ hk
    unfold pyStrCore
    split
    · simp; omega
    · unfold pyStrCore; simp; omega
  | succ f ih =>
    intro n acc k hn hk
    unfold pyStrCore
    split
    · simp; omega
    · rename_i hge
      have hk2 : 2 ≤ k := by
        rcases Nat.lt_or_ge k 2 with h2 | h2
        · have : k = 1 := by omega
          subst this
          simp at hn
          omega
        · exact h2
      obtain ⟨k', rfl⟩ : ∃ k', k = k' + 1 := ⟨k - 1, by omega⟩
      have hdiv : n / 10 < 10 ^ k' := by
        rw [Nat.div_lt_iff_lt_mul (by norm_num)]
        calc n < 10 ^ (k' + 1) := hn
          _ = 10 ^ k' * 10 := by ring
      have := ih (n / 10) (natDigitChar (n % 10) :: acc) k' hdiv (by omega)
      simp at this
      omega

/-- A number below `10 ^ k` (with `k ≥ 1`) renders to at most `k` digits. -/
theorem pyStr_length_le (n k : Nat) (hn : n < 10 ^ k) (hk : 1 ≤ k) :
    (pyStr n).length ≤ k := by
  have := pyStrCore_length n n [] k hn hk
  simpa [pyStr] using this

/-- `getD` is unaffected by `set` at a different index. -/
theorem getD_set_ne {α : Type} (l : List α) (i j : Nat) (a d : α)
    (h : i ≠ j) : (l.set i a).getD j d = l.getD j d := by
  simp [List.getD_eq_getD_get?, List.get?_eq_getElem?, List.getElem?_set_ne h]

/-- The inner name-variant loop is first-match search over the candidate
paths of one directory. -/
theorem searchNames_eq_find? (exists? : List Char → Bool) (dir : List Char)
    (names : List (List Char)) :
    searchNames exists? dir names = (names.map (joinPath dir)).find? exists? := by
  induction names with
  | nil => rfl
  | cons n ns ih =>
    simp only [searchNames, List.map_cons, List.find?_cons]
    cases h : exists? (joinPath dir n) <;> simp [h, ih]

/-- The directory loop is first-match search over the flattened candidate
list, directories outermost. -/
theorem searchDirs_eq_find? (exists? : List Char → Bool)
    (names : List (List Char)) (dirs : List (List Char)) :
    searchDirs exists? names dirs =
      (dirs.flatMap (fun d => names.map (joinPath d))).find? exists? := by
  induction dirs with
  | nil => rfl
  | cons d ds ih =>
    simp only [searchDirs, List.flatMap_cons, List.find?_append,
      searchNames_eq_find?, ih]
    cases (names.map (joinPath d)).find? exists? <;> simp [Option.or]

/-- `defStage` never synthesizes a definition file for an executable. -/
theorem defStage_executable (env : LinkEnv)
    (export_symbols : Option (List (List Char)))
    (objects : List (List Char)) (fn : List Char) :
    defStage env EXECUTABLE export_symbols objects fn = .ok none := by
  cases export_symbols <;> simp [defStage]

/-- The outputs `link` produces from a given definition-file stage result. -/
def mkLinkOutputs (env : LinkEnv) (objects0 : Option (List (List Char)))
    (fn : List Char) (libraries0 : Option (List (List Char))) (debug : Bool)
    (extra_preargs0 : Option (List (List Char)))
    (dfw : Option (List Char × List (List Char))) : LinkOutputs :=
  { defFileWrite := dfw
    objectsFinal :=
      objects0.getD [] ++ (match dfw with | some (f, _) => [f] | none => [])
    librariesFinal := libraries0.getD [] ++ env.dll_libraries
    extraPreargsFinal :=
      extra_preargs0.getD [] ++ (if debug then [] else ["-s".data])
    linkOutputPath := joinPath (dirname fn) (dllName8Of fn ++ dllExtensionOf fn)
    exportSymbolsPassed := none
    symlinkCreated :=
      if (dllNameOf fn).length > 8 then
        some (dllName8Of fn ++ dllExtensionOf fn, fn)
      else none }

/-- `link` in closed form: the removal attempt can never fail (every
`OSError` is swallowed), so the result is the definition-file stage result
mapped into the output record. -/
theorem link_unfold (env : LinkEnv) (rm : Except OSError Unit)
    (td : List Char) (objects0 : Option (List (List Char))) (fn : List Char)
    (libraries0 : Option (List (List Char)))
    (export_symbols : Option (List (List Char))) (debug : Bool)
    (extra_preargs0 : Option (List (List Char))) :
    link env rm td objects0 fn libraries0 export_symbols debug extra_preargs0 =
      (defStage env td export_symbols (objects0.getD []) fn).map
        (mkLinkOutputs env objects0 fn libraries0 debug extra_preargs0) := by
  have hrm : removeStage rm = .ok () := by cases rm <;> rfl
  cases hd : defStage env td export_symbols (objects0.getD []) fn with
  | error e => simp [link, hd, hrm, Except.map]
  | ok dfw => simp [link, hd, hrm, ite_self, Except.map, mkLinkOutputs]

/-! ## Claim theorems -/

/-- C1: Short-name derivation in `link` is a deterministic function of the
requested output filename: a stem of length at most 8 is kept unchanged; a
longer stem becomes the first 3 characters of the output filename's basename
followed by the decimal string of the sum of the code points of the full
output filename modulo 65536.  The path handed to the underlying link is the
derived short name in the requested directory. -/
theorem C1_short_name_derivation (fn : List Char) :
    ((dllNameOf fn).length ≤ 8 → dllName8Of fn = dllNameOf fn) ∧
    ((dllNameOf fn).length > 8 →
      dllName8Of fn = (basename fn).take 3 ++ pyStr (ordSum fn % 65536)) ∧
    (∀ env rm td obj libs exps dbg pre out,
      link env rm td obj fn libs exps dbg pre = .ok out →
      out.linkOutputPath =
        joinPath (dirname fn) (dllName8Of fn ++ dllExtensionOf fn)) := by
  refine ⟨?_, ?_, ?_⟩
  · intro h; unfold dllName8Of; rw [if_neg (by omega)]
  · intro h; unfold dllName8Of; rw [if_pos h]
  · intro env rm td obj libs exps dbg pre out h
    rw [link_unfold] at h
    cases hd : defStage env td exps (obj.getD []) fn with
    | error e => rw [hd] at h; simp [Except.map] at h
    | ok dfw =>
      rw [hd] at h
      simp only [Except.map, Except.ok.injEq] at h
      rw [← h]
      rfl

/-- C1 witness: at the concrete long-stem filename
`build/verylongname.dll` the hashed branch applies and yields the stated
concatenation. -/
theorem C1_short_name_derivation_witness :
    (dllNameOf "build/verylongname.dll".data).length > 8 ∧
    dllName8Of "build/verylongname.dll".data =
      (basename "build/verylongname.dll".data).take 3 ++
        pyStr (ordSum "build/verylongname.dll".data % 65536) :=
  ⟨by decide, (C1_short_name_derivation "build/verylongname.dll".data).2.1
    (by decide)⟩

/-- C4: `find_library_file` returns the first existing candidate scanning
directories in order (caller directories, then the semicolon-split
`LIBRARY_PATH` entries), trying the six name variants in their fixed order
inside each directory before moving on, and returns `none` exactly when no
candidate exists anywhere. -/
theorem C4_find_library_file_first_match (exists? : List Char → Bool)
    (library_path : Option (List Char)) (dirs : List (List Char))
    (lib : List Char) :
    find_library_file exists? library_path dirs lib =
      ((dirs ++ emxDirs library_path).flatMap
        (fun d => (tryNames lib).map (joinPath d))).find? exists? ∧
    (find_library_file exists? library_path dirs lib = none ↔
      ∀ c ∈ (dirs ++ emxDirs library_path).flatMap
        (fun d => (tryNames lib).map (joinPath d)), ¬ exists? c = true) := by
  have h := searchDirs_eq_find? exists? (tryNames lib) (dirs ++ emxDirs library_path)
  refine ⟨h, ?_⟩
  unfold find_library_file
  rw [h]
  exact List.find?_eq_none

/-- C8: the derived short stem never exceeds 8 characters: an unchanged
stem has length at most 8 by the branch condition, and the hashed form is at
most 3 basename characters plus at most 5 decimal digits (the checksum is
strictly below 65536). -/
theorem C8_short_stem_at_most_8 (fn : List Char) :
    (dllName8Of fn).length ≤ 8 := by
  unfold dllName8Of
  split
  · rw [List.length_append]
    have h1 := List.length_take 3 (basename fn)
    have h2 : (pyStr (ordSum fn % 65536)).length ≤ 5 := by
      refine pyStr_length_le _ 5 ?_ (by norm_num)
      exact lt_of_lt_of_le (Nat.mod_lt _ (by norm_num)) (by norm_num)
    omega
  · rename_i h; omega

/-- C3 (code bug, evaluated at the failing input): `.RC` is a declared
resource-script extension, yet `_compile` special-cases only the exact
string `'.rc'`, so a `.RC` source is handed to the C compiler rather than
the resource compiler; `.rc` and ordinary sources behave as described. -/
theorem C3_dispatch_rc_case_mismatch :
    ".RC".data ∈ rcExtensions ∧
    compileSpawn ["gcc".data] "widget.res".data "widget.RC".data ".RC".data
        [] [] [] =
      ["gcc".data, "widget.RC".data, "-o".data, "widget.res".data] ∧
    compileSpawn ["gcc".data] "widget.res".data "widget.rc".data ".rc".data
        [] [] [] =
      ["rc".data, "-r".data, "widget.rc".data] ∧
    compileSpawn ["gcc".data] "widget.o".data "widget.c".data ".c".data
        [] [] [] =
      ["gcc".data, "widget.c".data, "-o".data, "widget.o".data] := by
  decide

/-- C6 counterexample: with a long-stem output name, a removal failure that
is NOT an absence condition (a permission error) is also swallowed — the
link call still succeeds, contradicting the claim that only absence errors
are swallowed. -/
theorem C6_counterexample_permission_error_swallowed :
    (dllNameOf "verylongname.dll".data).length > 8 ∧
    (link ⟨none, none, [], [], []⟩ (.error .permissionDenied)
        "shared_library".data (some ["build/a.o".data])
        "verylongname.dll".data none none false none).isOk = true := by
  decide

/-- C6 as amended: the `except OSError: pass` around the removal swallows
EVERY OS-error kind, not only absence — the outcome of the removal attempt
never influences the result of `link`. -/
theorem C6_amended_all_os_errors_swallowed (env : LinkEnv) (e : OSError)
    (td : List Char) (objects0 : Option (List (List Char))) (fn : List Char)
    (libraries0 : Option (List (List Char)))
    (exps : Option (List (List Char))) (dbg : Bool)
    (pre0 : Option (List (List Char))) :
    link env (.error e) td objects0 fn libraries0 exps dbg pre0 =
      link env (.ok ()) td objects0 fn libraries0 exps dbg pre0 := by
  rw [link_unfold, link_unfold]

/-- C7: for an executable target `link` synthesizes no definition file and
appends nothing to the object list, even when export symbols are supplied;
in general a definition file is produced exactly when an export-symbol set
was supplied and the target kind is not executable. -/
theorem C7_executable_no_def_file (env : LinkEnv)
    (rm : Except OSError Unit) (objects0 : Option (List (List Char)))
    (fn : List Char) (libs0 : Option (List (List Char)))
    (exps : Option (List (List Char))) (dbg : Bool)
    (pre0 : Option (List (List Char))) :
    ((link env rm EXECUTABLE objects0 fn libs0 exps dbg pre0).map
      (fun o => (o.defFileWrite, o.objectsFinal)) =
        .ok (none, objects0.getD [])) ∧
    (∀ td out, link env rm td objects0 fn libs0 exps dbg pre0 = .ok out →
      (out.defFileWrite.isSome ↔ exps.isSome ∧ td ≠ EXECUTABLE)) := by
  constructor
  · rw [link_unfold, defStage_executable]
    simp [Except.map, mkLinkOutputs]
  · intro td out h
    rw [link_unfold] at h
    cases hd : defStage env td exps (objects0.getD []) fn with
    | error e => rw [hd] at h; simp [Except.map] at h
    | ok dfw =>
      rw [hd] at h
      simp only [Except.map, Except.ok.injEq] at h
      rw [← h]
      show dfw.isSome ↔ exps.isSome ∧ td ≠ EXECUTABLE
      cases exps with
      | none =>
        simp only [defStage, Except.ok.injEq] at hd
        simp [← hd]
      | some syms =>
        by_cases hts : td = EXECUTABLE
        · subst hts
          rw [defStage_executable] at hd
          simp only [Except.ok.injEq] at hd
          simp [← hd]
        · cases hobj : objects0.getD [] with
          | nil => simp [defStage, hts, hobj] at hd
          | cons o os =>
            simp [defStage, hts, hobj] at hd
            simp [← hd, hts]

/-- A line that starts with a character other than `'E'` is not the
`EXPORTS` line. -/
theorem cons_append_ne_exports (c : Char) (s t : List Char) (h : c ≠ 'E') :
    (c :: s) ++ t ≠ "EXPORTS".data := by
  intro hc
  rw [List.cons_append] at hc
  rw [show "EXPORTS".data = 'E' :: "XPORTS".data from rfl] at hc
  injection hc with h1 _
  exact h h1

/-- C2: when export symbols are supplied and the target is not an
executable, the synthesized definition file is exactly the LIBRARY line
naming the short stem, the DESCRIPTION buildlevel line (vendor defaulted
from the environment, version defaulted to `0.0`, long stem as long name),
the DATA line, one EXPORTS line, and one quoted underscore-prefixed line per
symbol in input order. -/
theorem C2_def_file_contents (env : LinkEnv) (rm : Except OSError Unit)
    (td : List Char) (objects0 : Option (List (List Char))) (fn : List Char)
    (libs0 : Option (List (List Char))) (syms : List (List Char)) (dbg : Bool)
    (pre0 : Option (List (List Char))) (o : List Char) (os : List (List Char))
    (htd : td ≠ EXECUTABLE) (hobj : objects0.getD [] = o :: os) :
    (link env rm td objects0 fn libs0 (some syms) dbg pre0).map
        (fun out => out.defFileWrite) =
      .ok (some (joinPath (dirname o) (dllNameOf fn ++ ".def".data),
        [ "LIBRARY ".data ++ dllName8Of fn ++ " INITINSTANCE TERMINSTANCE".data,
          "DESCRIPTION \"@#".data ++ vendorOf env.vendor_env ++ ":".data ++
            versionOf env.version ++ "#@##1## ".data ++ env.date_time ++
            "     ".data ++ env.host ++ "::::0::@@".data ++ dllNameOf fn ++
            "\"".data,
          "DATA MULTIPLE NONSHARED".data,
          "EXPORTS".data ] ++
        syms.map (fun sym => "  \"_".data ++ sym ++ "\"".data))) ∧
    (∀ path lines,
      (link env rm td objects0 fn libs0 (some syms) dbg pre0).map
          (fun out => out.defFileWrite) = .ok (some (path, lines)) →
      lines.count "EXPORTS".data = 1) := by
  have hmain :
      (link env rm td objects0 fn libs0 (some syms) dbg pre0).map
          (fun out => out.defFileWrite) =
        .ok (some (joinPath (dirname o) (dllNameOf fn ++ ".def".data),
          [ "LIBRARY ".data ++ dllName8Of fn ++
              " INITINSTANCE TERMINSTANCE".data,
            "DESCRIPTION \"@#".data ++ vendorOf env.vendor_env ++ ":".data ++
              versionOf env.version ++ "#@##1## ".data ++ env.date_time ++
              "     ".data ++ env.host ++ "::::0::@@".data ++ dllNameOf fn ++
              "\"".data,
            "DATA MULTIPLE NONSHARED".data,
            "EXPORTS".data ] ++
          syms.map (fun sym => "  \"_".data ++ sym ++ "\"".data))) := by
    rw [link_unfold, hobj]
    simp [defStage, htd, Except.map, mkLinkOutputs]
  refine ⟨hmain, ?_⟩
  intro path lines h
  rw [hmain] at h
  simp only [Except.ok.injEq, Option.some.injEq, Prod.mk.injEq] at h
  obtain ⟨-, hlines⟩ := h
  subst hlines
  have hA1 : ("LIBRARY ".data ++ dllName8Of fn ++
      " INITINSTANCE TERMINSTANCE".data) ≠ "EXPORTS".data := by
    rw [List.append_assoc]
    exact cons_append_ne_exports 'L' _ _ (by decide)
  have hA2 : ("DESCRIPTION \"@#".data ++ vendorOf env.vendor_env ++
      ":".data ++ versionOf env.version ++ "#@##1## ".data ++ env.date_time ++
      "     ".data ++ env.host ++ "::::0::@@".data ++ dllNameOf fn ++
      "\"".data) ≠ "EXPORTS".data := by
    simp only [List.append_assoc]
    exact cons_append_ne_exports 'D' _ _ (by decide)
  have hA3 : "DATA MULTIPLE NONSHARED".data ≠ "EXPORTS".data := by decide
  have hmap : (syms.map
      (fun sym => "  \"_".data ++ sym ++ "\"".data)).count "EXPORTS".data
        = 0 := by
    rw [List.count_eq_zero]
    intro hmem
    obtain ⟨sym, -, hEq⟩ := List.mem_map.1 hmem
    rw [List.append_assoc] at hEq
    exact cons_append_ne_exports ' ' _ _ (by decide) hEq
  rw [List.count_append, hmap]
  simp [List.count_cons, beq_iff_eq, Ne.symm hA1, Ne.symm hA2, Ne.symm hA3]

/-- C5: a source whose extension is neither a recognized source extension
nor a recognized resource-script extension makes `object_filenames` fail
with an `UnknownFileError` identifying an offending extension and source
path; no output list is returned. -/
theorem C5_unknown_extension_rejected (src_extensions : List (List Char))
    (sd : Bool) (od : Option (List Char)) (srcs : List (List Char))
    (src : List Char) (hmem : src ∈ srcs)
    (hbad : (splitext src).2 ∉ src_extensions ++ rcExtensions) :
    ∃ e s, object_filenames src_extensions sd od srcs =
        .error (.unknownFile e s) ∧
      s ∈ srcs ∧ e = (splitext s).2 ∧ e ∉ src_extensions ++ rcExtensions := by
  induction srcs with
  | nil => cases hmem
  | cons a rest ih =>
    by_cases ha : (splitext a).2 ∈ src_extensions ++ rcExtensions
    · have hsrc : src ∈ rest := by
        rcases List.mem_cons.1 hmem with h | h
        · subst h; exact absurd ha hbad
        · exact h
      obtain ⟨e, s, heq, hmem', hext, hbad'⟩ := ih hsrc
      refine ⟨e, s, ?_, List.mem_cons_of_mem _ hmem', hext, hbad'⟩
      simp [object_filenames, ha, heq]
    · exact ⟨(splitext a).2, a, by simp [object_filenames, ha],
        List.mem_cons_self a rest, rfl, ha⟩

/-- C10: with export symbols supplied and a non-executable target, `link`
takes the directory of the first object to place the definition file, so an
empty objects list makes the call fail with `IndexError` before any
definition file is produced. -/
theorem C10_empty_objects_index_error (env : LinkEnv)
    (rm : Except OSError Unit) (td : List Char) (fn : List Char)
    (libs0 : Option (List (List Char))) (syms : List (List Char)) (dbg : Bool)
    (pre0 : Option (List (List Char))) (htd : td ≠ EXECUTABLE) :
    (∀ objects0 : Option (List (List Char)), objects0.getD [] = [] →
      link env rm td objects0 fn libs0 (some syms) dbg pre0 =
        .error .indexError) ∧
    (∀ (objects0 : Option (List (List Char))) (o : List Char)
        (os : List (List Char)), objects0.getD [] = o :: os →
      (link env rm td objects0 fn libs0 (some syms) dbg pre0).map
          (fun out => out.defFileWrite.map Prod.fst) =
        .ok (some (joinPath (dirname o) (dllNameOf fn ++ ".def".data)))) := by
  constructor
  · intro objects0 hobj
    rw [link_unfold, hobj]
    simp [defStage, htd, Except.map]
  · intro objects0 o os hobj
    rw [link_unfold, hobj]
    simp [defStage, htd, Except.map, mkLinkOutputs]

/-- Three trailing allocations leave existing cells unchanged. -/
theorem getD_app3 (cs : List (List (List Char))) (x y z : List (List Char))
    (r : Nat) (hr : r < cs.length) :
    (((cs ++ [x]) ++ [y]) ++ [z]).getD r [] = cs.getD r [] := by
  rw [List.getD_append _ _ _ _ (by simp; omega),
    List.getD_append _ _ _ _ (by simp; omega),
    List.getD_append _ _ _ _ hr]

/-- C9: `link` copies the caller's objects, libraries and extra-pre-args
lists before appending the runtime-support libraries, the definition-file
path, and the `-s` strip flag; the caller's list objects are unchanged by
the call. -/
theorem C9_caller_lists_untouched (st : PyHeap)
    (objectsR librariesR preargsR : Nat) (dlls : List (List Char))
    (df : Option (List Char)) (dbg : Bool)
    (hO : objectsR < st.cells.length) (hL : librariesR < st.cells.length)
    (hP : preargsR < st.cells.length) :
    pyGet (linkListOps st objectsR librariesR preargsR dlls df dbg).1
        objectsR = pyGet st objectsR ∧
    pyGet (linkListOps st objectsR librariesR preargsR dlls df dbg).1
        librariesR = pyGet st librariesR ∧
    pyGet (linkListOps st objectsR librariesR preargsR dlls df dbg).1
        preargsR = pyGet st preargsR := by
  obtain ⟨cs⟩ := st
  have hO' : objectsR < cs.length := hO
  have hL' : librariesR < cs.length := hL
  have hP' : preargsR < cs.length := hP
  cases df <;> cases dbg <;>
    · simp only [linkListOps, pyCopy, pyAlloc, pyExtend, pyAppend, pyGet,
        if_true, if_false, Bool.false_eq_true, eq_self_iff_true, ite_true,
        ite_false]
      refine ⟨?_, ?_, ?_⟩ <;>
        · repeat rw [getD_set_ne]
          rw [getD_app3]
          all_goals try simp only [List.length_append, List.length_cons,
            List.length_nil]
          all_goals omega

/-! ## Concrete inputs for the witness theorems -/

/-- Fallback record used when extracting the payload of an `ok` result. -/
def defaultOutputs : LinkOutputs :=
  { defFileWrite := none, objectsFinal := [], librariesFinal := [],
    extraPreargsFinal := [], linkOutputPath := [], exportSymbolsPassed := none,
    symlinkCreated := none }

/-- Payload of an `ok` link result (fallback on errors). -/
def getOkOutputs (x : Except PyErr LinkOutputs) : LinkOutputs :=
  match x with
  | .ok o => o
  | .error _ => defaultOutputs

/-- A concrete ambient environment for evaluation. -/
def envW : LinkEnv :=
  { vendor_env := none, version := some "1.0".data,
    date_time := "02 Oct 2025 12:00:00".data, host := "os2box".data,
    dll_libraries := [] }

/-- A concrete shared-library link call with export symbols. -/
def linkDefW : Except PyErr LinkOutputs :=
  link envW (.ok ()) "shared_library".data (some ["build/temp/a.o".data])
    "build/verylongpkgname.dll".data none
    (some ["init_a".data, "PyInit_a".data]) false none

/-- The definition-file path produced by `linkDefW`. -/
def defPathW : List Char :=
  ((getOkOutputs linkDefW).defFileWrite.getD ([], [])).1

/-- The definition-file lines produced by `linkDefW`. -/
def defLinesW : List (List Char) :=
  ((getOkOutputs linkDefW).defFileWrite.getD ([], [])).2

/-- A concrete executable link call with export symbols. -/
def linkExeW : Except PyErr LinkOutputs :=
  link envW (.ok ()) EXECUTABLE (some ["build/a.o".data])
    "build/prog.exe".data none (some ["init_mod".data]) false none

/-- A concrete three-cell heap for the list-aliasing witness. -/
def heapW : PyHeap := ⟨[["a.o".data], ["m".data], ["-v".data]]⟩

/-- C2 witness: at a concrete shared-library call the hypotheses hold and
the produced definition file has exactly one EXPORTS line. -/
theorem C2_def_file_contents_witness :
    ("shared_library".data ≠ EXECUTABLE) ∧
    ((some ["build/temp/a.o".data] : Option (List (List Char))).getD [] =
      "build/temp/a.o".data :: []) ∧
    defLinesW.count "EXPORTS".data = 1 :=
  ⟨by decide, rfl,
    (C2_def_file_contents envW (.ok ()) "shared_library".data
      (some ["build/temp/a.o".data]) "build/verylongpkgname.dll".data none
      ["init_a".data, "PyInit_a".data] false none "build/temp/a.o".data []
      (by decide) rfl).2 defPathW defLinesW (by rfl)⟩

/-- C5 witness: the concrete source `widget.xyz` has an unrecognized
extension and the mapper rejects it. -/
theorem C5_unknown_extension_rejected_witness :
    ("widget.xyz".data ∈ ["widget.xyz".data]) ∧
    ((splitext "widget.xyz".data).2 ∉ [".c".data] ++ rcExtensions) ∧
    (∃ e s, object_filenames [".c".data] false none ["widget.xyz".data] =
        .error (.unknownFile e s) ∧ s ∈ ["widget.xyz".data] ∧
        e = (splitext s).2 ∧ e ∉ [".c".data] ++ rcExtensions) :=
  ⟨by decide, by decide,
    C5_unknown_extension_rejected [".c".data] false none ["widget.xyz".data]
      "widget.xyz".data (by decide) (by decide)⟩

/-- C7 witness: a concrete executable link call with export symbols
synthesizes no definition file. -/
theorem C7_executable_no_def_file_witness :
    (link envW (.ok ()) EXECUTABLE (some ["build/a.o".data])
        "build/prog.exe".data none (some ["init_mod".data]) false none =
      .ok (getOkOutputs linkExeW)) ∧
    ((getOkOutputs linkExeW).defFileWrite.isSome ↔
      (some ["init_mod".data] : Option (List (List Char))).isSome ∧
        EXECUTABLE ≠ EXECUTABLE) :=
  ⟨by rfl,
    (C7_executable_no_def_file envW (.ok ()) (some ["build/a.o".data])
      "build/prog.exe".data none (some ["init_mod".data]) false none).2
      EXECUTABLE (getOkOutputs linkExeW) (by rfl)⟩

/-- C9 witness: at a concrete three-cell heap the caller's three lists are
unchanged by the link-time list operations. -/
theorem C9_caller_lists_untouched_witness :
    (0 < heapW.cells.length ∧ 1 < heapW.cells.length ∧
      2 < heapW.cells.length) ∧
    (pyGet (linkListOps heapW 0 1 2 ["gcc".data]
        (some "build/x.def".data) false).1 0 = pyGet heapW 0 ∧
      pyGet (linkListOps heapW 0 1 2 ["gcc".data]
        (some "build/x.def".data) false).1 1 = pyGet heapW 1 ∧
      pyGet (linkListOps heapW 0 1 2 ["gcc".data]
        (some "build/x.def".data) false).1 2 = pyGet heapW 2) :=
  ⟨⟨by decide, by decide, by decide⟩,
    C9_caller_lists_untouched heapW 0 1 2 ["gcc".data]
      (some "build/x.def".data) false (by decide) (by decide) (by decide)⟩

/-- C10 witness: a concrete shared-library call with an empty objects list
fails with `IndexError`. -/
theorem C10_empty_objects_index_error_witness :
    ("shared_library".data ≠ EXECUTABLE) ∧
    ((some ([] : List (List Char)) :
        Option (List (List Char))).getD [] = []) ∧
    link envW (.ok ()) "shared_library".data (some []) "build/pkg.dll".data
        none (some ["initpkg".data]) false none = .error .indexError :=
  ⟨by decide, rfl,
    (C10_empty_objects_index_error envW (.ok ()) "shared_library".data
      "build/pkg.dll".data none ["initpkg".data] false none (by decide)).1
      (some []) rfl⟩

end EmxC
